import Mathlib

/-!
Verification development for the kitbash-kvm HID-over-serial core.

The definitions below are a shallow embedding of the TypeScript sources:

* `src/components/KBKvmController/utils/ch9329.ts` — frame codec
  (`genPacket`, `i8clamp`, `decomposeHexToBytes`);
* the KVM input component (`handleKeydown`, `handleKeyup`, the
  window-focus watcher, the relative-mouse pointer-lock handler and the
  absolute-mouse coordinate mapping);
* `src/components/KBKvmController/MacrosMenu.vue` (`sendText`,
  `sendCommandKey`, `sendAdvancedText`).

JavaScript numbers are embedded as `ℤ` (or `ℚ` where fractional values
matter); the `Uint8Array` accumulator used for the checksum is embedded
as iterated `% 256`; `throw` is embedded as `Except.error`; the
asynchronous side effects (serial writes, sleeps, notifications) are
embedded as an explicit `Effect` trace.
-/

/-- Command codes of the CH9329 serial protocol (`enum CmdType` in
`ch9329.ts`). -/
inductive CmdType
  | CMD_GET_INFO
  | CMD_SEND_KB_GENERAL_DATA
  | CMD_SEND_KB_MEDIA_DATA
  | CMD_SEND_MS_ABS_DATA
  | CMD_SEND_MS_REL_DATA
  | CMD_SEND_MY_HID_DATA
  | CMD_READ_MY_HID_DATA
  | CMD_GET_PARA_CFG
  | CMD_SET_PARA_CFG
  | CMD_GET_USB_STRING
  | CMD_SET_USB_STRING
  | CMD_SET_DEFAULT_CFG
  | CMD_RESET
deriving DecidableEq

/-- Numeric value of each command code, as assigned in `ch9329.ts`. -/
def CmdType.val : CmdType → ℤ
  | .CMD_GET_INFO => 0x01
  | .CMD_SEND_KB_GENERAL_DATA => 0x02
  | .CMD_SEND_KB_MEDIA_DATA => 0x03
  | .CMD_SEND_MS_ABS_DATA => 0x04
  | .CMD_SEND_MS_REL_DATA => 0x05
  | .CMD_SEND_MY_HID_DATA => 0x06
  | .CMD_READ_MY_HID_DATA => 0x87
  | .CMD_GET_PARA_CFG => 0x08
  | .CMD_SET_PARA_CFG => 0x09
  | .CMD_GET_USB_STRING => 0x0a
  | .CMD_SET_USB_STRING => 0x0b
  | .CMD_SET_DEFAULT_CFG => 0x0c
  | .CMD_RESET => 0x0f

/-- The `ret` array built by `genPacket` in `ch9329.ts`: header `0x57 0xab`,
address `0x00`, command code, payload length, payload, then the checksum.
The source accumulates the checksum into a one-element `Uint8Array`, so every
addition is reduced mod 256; `List.foldl (fun s v => (s + v) % 256) 0`
embeds that accumulator. -/
def genPacketRet (cmd : CmdType) (data : List ℤ) : List ℤ :=
  let ret : List ℤ := [0x57, 0xab, 0x00, cmd.val, (data.length : ℤ)] ++ data
  ret ++ [ret.foldl (fun s v => (s + v) % 256) 0]

/-- The `genPacket` function of `ch9329.ts`.  The source first walks the
payload and throws the first value `v` with `v < 0 || v > 0xff`; only when
no such value exists does it build and return the frame. -/
def genPacket (cmd : CmdType) (data : List ℤ) : Except ℤ (List ℤ) :=
  match data.find? (fun v => decide (v < 0) || decide (255 < v)) with
  | some v => Except.error v
  | none => Except.ok (genPacketRet cmd data)

/-- The `i8clamp` helper of `ch9329.ts`:
`Math.max(-0x7f, Math.min(v, 0x7f))`. -/
def i8clamp (v : ℤ) : ℤ := max (-0x7f) (min v 0x7f)

/-- The `decomposeHexToBytes` helper of `ch9329.ts`:
`[hexNumber & 0xff, (hexNumber >> 8) & 0xff]`, low byte first.  Its callers
pass the nonnegative normalized coordinates, so the embedding uses `Nat`. -/
def decomposeHexToBytes (hexNumber : ℕ) : List ℕ :=
  [hexNumber &&& 0xff, (hexNumber >>> 8) &&& 0xff]

/-- A general-keyboard frame as every keyboard caller builds it:
`genPacket(CMD_SEND_KB_GENERAL_DATA, controlBits, 0, hidCode, 0, 0, 0, 0, 0)`.
All callers pass in-range bytes, so the frame is the `ret` array. -/
def kbGeneralFrame (controlBits hidCode : ℤ) : List ℤ :=
  genPacketRet CmdType.CMD_SEND_KB_GENERAL_DATA
    [controlBits, 0, hidCode, 0, 0, 0, 0, 0]

/-- Modelled from the spec: the character table `ASCII_KEYS` lives in
`utils/keys-enum.ts`, which is not among the provided sources; per §4.2 of
the spec it maps each printable ASCII character to a
`(hidCode, shiftRequired)` pair following the USB HID keyboard usage table.
Only the entries exercised by the claims are listed; absence of a key means
the character is unsupported, exactly as in the source table. -/
def ASCII_KEYS : List (String × ℤ × Bool) :=
  [("a", 0x04, false), ("b", 0x05, false), ("c", 0x06, false),
   ("d", 0x07, false), ("e", 0x08, false), ("h", 0x0b, false),
   ("i", 0x0c, false), ("n", 0x11, false), ("x", 0x1b, false),
   ("y", 0x1c, false),
   ("A", 0x04, true), ("B", 0x05, true), ("C", 0x06, true)]

/-- The named-key table `keyMap` of `sendCommandKey` in `MacrosMenu.vue`. -/
def keyMap : List (String × ℤ) :=
  [("ENTER", 0x28), ("ESCAPE", 0x29), ("ESC", 0x29), ("BACKSPACE", 0x2a),
   ("TAB", 0x2b), ("SPACE", 0x2c), ("CAPSLOCK", 0x39),
   ("F1", 0x3a), ("F2", 0x3b), ("F3", 0x3c), ("F4", 0x3d), ("F5", 0x3e),
   ("F6", 0x3f), ("F7", 0x40), ("F8", 0x41), ("F9", 0x42), ("F10", 0x43),
   ("F11", 0x44), ("F12", 0x45), ("SCROLLLOCK", 0x47), ("PAUSE", 0x48),
   ("INSERT", 0x49), ("HOME", 0x4a), ("PAGEUP", 0x4b), ("DELETE", 0x4c),
   ("DEL", 0x4c), ("END", 0x4d), ("PAGEDOWN", 0x4e),
   ("RIGHT", 0x4f), ("ARROWRIGHT", 0x4f), ("LEFT", 0x50),
   ("ARROWLEFT", 0x50), ("DOWN", 0x51), ("ARROWDOWN", 0x51),
   ("UP", 0x52), ("ARROWUP", 0x52), ("NUMLOCK", 0x53)]

/-- A browser keyboard event as the handlers read it: `event.key` plus the
four modifier flags. -/
structure KeyEvent where
  key : String
  shiftKey : Bool
  ctrlKey : Bool
  altKey : Bool
  metaKey : Bool

/-- The modifier names tracked by `handleKeydown`
(`['Shift', 'Control', 'Alt', 'Meta'].includes(event.key)`). -/
def modifierNames : List String := ["Shift", "Control", "Alt", "Meta"]

/-- JavaScript `Set.add`: insert only when absent (the embedding keeps the
set as an insertion-ordered list). -/
def setAdd (s : List String) (k : String) : List String :=
  if k ∈ s then s else s ++ [k]

/-- The `handleKeydown` handler of the KVM input component.  Inputs: whether
`serialPort` is non-null, the `keyboardCompatibleMode` setting, the event,
and the mutable `eatKeys` set.  Output: the updated `eatKeys` set and the
general-keyboard frames written to the serial sink (the compatible-mode
press/release pair is one buffer in the source; it holds two frames). -/
def handleKeydown (connected compatibleMode : Bool) (ev : KeyEvent)
    (eatKeys : List String) : List String × List (List ℤ) :=
  if connected = false then (eatKeys, [])
  else if ev.shiftKey ∧ ev.key = "Escape" then (eatKeys, [])
  else if compatibleMode ∧ ev.key ∈ eatKeys then (eatKeys.erase ev.key, [])
  else if ev.key ∈ modifierNames then
    let p1 : ℕ × List String :=
      if ev.shiftKey then (0b10, setAdd eatKeys "Shift") else (0, eatKeys)
    let p2 : ℕ × List String :=
      if ev.ctrlKey then (p1.1 ||| 0b1, setAdd p1.2 "Control") else p1
    let p3 : ℕ × List String :=
      if ev.altKey then (p2.1 ||| 0b100, setAdd p2.2 "Alt") else p2
    let p4 : ℕ × List String :=
      if ev.metaKey then (p3.1 ||| 0b1000, setAdd p3.2 "Meta") else p3
    (p4.2, [kbGeneralFrame (p4.1 : ℤ) 0])
  else
    match ASCII_KEYS.lookup ev.key with
    | none => (eatKeys, [])
    | some kd =>
      let p1 : ℕ × List String :=
        if kd.2 ∨ ev.shiftKey then (0b10, setAdd eatKeys "Shift")
        else (0, eatKeys)
      let p2 : ℕ × List String :=
        if ev.ctrlKey then (p1.1 ||| 0b1, setAdd p1.2 "Control") else p1
      let p3 : ℕ × List String :=
        if ev.altKey then (p2.1 ||| 0b100, setAdd p2.2 "Alt") else p2
      let p4 : ℕ × List String :=
        if ev.metaKey then (p3.1 ||| 0b1000, setAdd p3.2 "Meta") else p3
      (p4.2,
        kbGeneralFrame (p4.1 : ℤ) kd.1 ::
          (if compatibleMode then [kbGeneralFrame 0 0] else []))

/-- The `handleKeyup` handler: when `serialPort` is non-null it always
writes one all-zero general-keyboard release frame.  It never reads or
writes `eatKeys`. -/
def handleKeyup (connected : Bool) (eatKeys : List String) :
    List String × List (List ℤ) :=
  if connected = false then (eatKeys, []) else (eatKeys, [kbGeneralFrame 0 0])

/-- The `watch(focused, ...)` callback: on focus loss it calls
`handleKeyup()` with no event. -/
def watchFocused (focusVal connected : Bool) (eatKeys : List String) :
    List String × List (List ℤ) :=
  if focusVal = false then handleKeyup connected eatKeys else (eatKeys, [])

/-- The negative-value re-encoding applied to each clamped axis in the
relative-mouse loop: `if (p < 0) p = (0xff + p) & 0xff`.  For
`-127 ≤ p < 0` the masked value `0xff + p` already lies in `[0, 255]`,
so the mask is the identity and is embedded as `% 256`. -/
def encodeAxisByte (p : ℤ) : ℤ := if p < 0 then (0xff + p) % 256 else p

/-- One pass of the relative-mouse `do while` loop, fuel-indexed so that the
definition is structural (each iteration strictly shrinks `|x| + |y|`, so
the fuel chosen by `relativeMouseFrames` is never exhausted): clamp each
axis, subtract the clamped part from the accumulator, re-encode negative
values, emit one `CMD_SEND_MS_REL_DATA` frame, and continue until both
accumulators are zero. -/
def relFramesAux : ℕ → ℤ → ℤ → ℤ → List (List ℤ)
  | 0, _, _, _ => []
  | fuel + 1, pressedBits, x, y =>
    let pX := i8clamp x
    let pY := i8clamp y
    let x1 := x - pX
    let y1 := y - pY
    let frame := genPacketRet CmdType.CMD_SEND_MS_REL_DATA
      [0x01, pressedBits, encodeAxisByte pX, encodeAxisByte pY, 0]
    if x1 = 0 ∧ y1 = 0 then [frame]
    else frame :: relFramesAux fuel pressedBits x1 y1

/-- The frames pushed onto `value` by the relative-mouse `do while` loop for
button state `pressedBits` and accumulated displacement `(x, y)`. -/
def relativeMouseFrames (pressedBits x y : ℤ) : List (List ℤ) :=
  relFramesAux (x.natAbs + y.natAbs + 1) pressedBits x y

/-- Reinterpret an emitted unsigned byte as a signed 8-bit value (two's
complement reading: bytes at or above `0x80` stand for `b - 256`). -/
def i8decode (b : ℤ) : ℤ := if 128 ≤ b then b - 256 else b

/-- The state captured by the pointer-lock closure:
`let [pressedBits, x, y] = [0, 0, 0]` and the throttle `timer`. -/
structure RelState where
  pressedBits : ℤ
  x : ℤ
  y : ℤ
  timerArmed : Bool
deriving DecidableEq

/-- The shared `onmousemove`/`onmousedown`/`onmouseup` handler of the
pointer-lock (relative mouse) mode: accumulate the motion deltas, cancel
the throttle window when the button bitmask changed or an accumulator left
the signed 8-bit range, and, when no throttle window is pending, run the
emission loop and reset the accumulators.  (`Math.round` is the identity on
the integer deltas modelled here.) -/
def relMouseEvent (s : RelState) (buttons mx my : ℤ) :
    RelState × List (List ℤ) :=
  let x := s.x + mx
  let y := s.y + my
  let armed : Bool :=
    if s.pressedBits ≠ buttons ∨ i8clamp x ≠ x ∨ i8clamp y ≠ y then false
    else s.timerArmed
  if armed then (⟨buttons, x, y, true⟩, [])
  else (⟨buttons, 0, 0, true⟩, relativeMouseFrames buttons x y)

/-- The absolute-mouse coordinate normalization of `bindAbsoluteMouse`:
`Math.floor((offset * 4096) / screenSize)`, with the element-relative
offset and the element size embedded as rationals. -/
def absNormalize (offset size : ℚ) : ℤ := ⌊offset * 4096 / size⌋

/-- A JavaScript number produced by `parseFloat` on a finite decimal
literal, represented exactly as the scaled decimal `mant * 10 ^ exp10`.
`Rat` arithmetic does not reduce inside the kernel, so the embedding keeps
the two integer components; `JSNumber.toRat` interprets them and the
lemmas `JSNumber.toRat_pos` and `JSNumber.toRat_scale1000` connect the
sign test and the `* 1000` scaling used by the interpreter to the
rational value. -/
structure JSNumber where
  mant : ℤ
  exp10 : ℤ
deriving DecidableEq

/-- The rational value denoted by a `JSNumber`. -/
def JSNumber.toRat (n : JSNumber) : ℚ := (n.mant : ℚ) * 10 ^ n.exp10

/-- One observable step of the senders: a serial write of one byte buffer,
a sleep measured in milliseconds, or a user notification. -/
inductive Effect
  | write (bytes : List ℤ)
  | sleep (ms : JSNumber)
  | notify (kind msg : String)
deriving DecidableEq

/-- The `writeSerial` wrapper of `MacrosMenu.vue`: with no writer it only
notifies, otherwise it performs the write. -/
def writeSerialEff (connected : Bool) (bytes : List ℤ) : List Effect :=
  if connected then [Effect.write bytes]
  else [Effect.notify "error" "Serial port not initialized"]

/-- The per-character loop of `sendText`, carrying the `errorChars`
accumulator: a supported character produces one write holding the press
frame concatenated with the all-zero release frame, then a 16 ms sleep;
an unsupported character is collected and reported once at the end. -/
def sendTextGo (connected : Bool) : List Char → List Char → List Effect
  | [], errorChars =>
    if errorChars = [] then []
    else
      [Effect.notify "error"
        ("[" ++ String.intercalate ", " (errorChars.map String.singleton) ++
          "] send failed, only ASCII char is allowed.")]
  | c :: rest, errorChars =>
    match ASCII_KEYS.lookup (String.singleton c) with
    | none => sendTextGo connected rest (errorChars ++ [c])
    | some kd =>
      writeSerialEff connected
          (kbGeneralFrame (if kd.2 then 2 else 0) kd.1 ++ kbGeneralFrame 0 0) ++
        Effect.sleep ⟨16, 0⟩ :: sendTextGo connected rest errorChars

/-- The `sendText` sender of `MacrosMenu.vue` (the KVM input component has
the same per-character body). -/
def sendTextEffects (connected : Bool) (text : String) : List Effect :=
  sendTextGo connected text.data []

/-- JavaScript `String.prototype.trim`: strip leading and trailing
whitespace (structural on the character list, so that proofs can evaluate
it). -/
def jsTrim (s : String) : String :=
  String.mk
    (((s.data.dropWhile Char.isWhitespace).reverse.dropWhile
        Char.isWhitespace).reverse)

/-- JavaScript `String.prototype.toUpperCase` on ASCII characters. -/
def jsUpperChar (c : Char) : Char :=
  if 'a' ≤ c ∧ c ≤ 'z' then Char.ofNat (c.toNat - 32) else c

/-- JavaScript `String.prototype.toLowerCase` on ASCII characters. -/
def jsLowerChar (c : Char) : Char :=
  if 'A' ≤ c ∧ c ≤ 'Z' then Char.ofNat (c.toNat + 32) else c

/-- Upper-case a string, ASCII-wise. -/
def jsToUpper (s : String) : String := String.mk (s.data.map jsUpperChar)

/-- Lower-case a string, ASCII-wise. -/
def jsToLower (s : String) : String := String.mk (s.data.map jsLowerChar)

/-- JavaScript `String.prototype.startsWith`. -/
def jsStartsWith (s pre : String) : Bool := pre.data.isPrefixOf s.data

/-- JavaScript `String.prototype.substring(n)` (code-unit drop; the strings
fed to it here are ASCII). -/
def jsDrop (s : String) (n : ℕ) : String := String.mk (s.data.drop n)

/-- The worker behind `jsSplit`, accumulating the current segment in
reverse. -/
def jsSplitAux (sep : Char) : List Char → List Char → List String
  | [], acc => [String.mk acc.reverse]
  | c :: rest, acc =>
    if c = sep then String.mk acc.reverse :: jsSplitAux sep rest []
    else jsSplitAux sep rest (c :: acc)

/-- JavaScript `String.prototype.split` on a one-character separator. -/
def jsSplit (sep : Char) (s : String) : List String := jsSplitAux sep s.data []

/-- The modifier names recognised by `sendCommandKey`. -/
def isModifierName (part : String) : Bool :=
  part = "CTRL" ∨ part = "CONTROL" ∨ part = "SHIFT" ∨ part = "ALT" ∨
    part = "META" ∨ part = "WIN" ∨ part = "CMD"

/-- The `controlBits` accumulation loop of `sendCommandKey`. -/
def modifierBits (parts : List String) : ℕ :=
  parts.foldl
    (fun cb part =>
      if part = "CTRL" ∨ part = "CONTROL" then cb ||| 0b1
      else if part = "SHIFT" then cb ||| 0b10
      else if part = "ALT" then cb ||| 0b100
      else if part = "META" ∨ part = "WIN" ∨ part = "CMD" then cb ||| 0b1000
      else cb)
    0

/-- The `mainKey` selection of `sendCommandKey`: the last part that is not a
modifier name (initially the empty string). -/
def mainKeyOf (parts : List String) : String :=
  parts.foldl (fun mk part => if isModifierName part then mk else part) ""

/-- The `hidCode` resolution of `sendCommandKey`: a single-character key is
looked up in the character table (upper case first, then lower case); any
other key is looked up in the named-key table; failures leave the code 0. -/
def commandHidCode (mainKey : String) : ℤ :=
  if mainKey.length = 1 then
    match ASCII_KEYS.lookup (jsToUpper mainKey) with
    | some kd => kd.1
    | none =>
      match ASCII_KEYS.lookup (jsToLower mainKey) with
      | some kd => kd.1
      | none => 0
  else
    match keyMap.lookup mainKey with
    | some k => k
    | none => 0

/-- The `sendCommandKey` sender of `MacrosMenu.vue`: split the command on
`+`, accumulate modifier bits, resolve the main key, and either warn about
an unknown command or write the press frame concatenated with the all-zero
release frame in a single buffer, followed by a 16 ms sleep. -/
def sendCommandKeyEffects (connected : Bool) (command : String) : List Effect :=
  let parts := (jsSplit '+' command).map jsTrim
  let controlBits := modifierBits parts
  let mainKey := mainKeyOf parts
  let hidCode := commandHidCode mainKey
  if hidCode = 0 then
    [Effect.notify "warning" ("Unknown key command: " ++ command)]
  else
    writeSerialEff connected
        (kbGeneralFrame (controlBits : ℤ) hidCode ++ kbGeneralFrame 0 0) ++
      [Effect.sleep ⟨16, 0⟩]

/-- Numeric value of a decimal digit character. -/
def charDigitVal (c : Char) : ℤ := (c.toNat : ℤ) - 48

/-- Value of a run of decimal digits. -/
def digitsToInt (ds : List Char) : ℤ :=
  ds.foldl (fun a c => a * 10 + charDigitVal c) 0

/-- Exponent part of a JavaScript float literal: an optional sign and a
digit run; with no digits the exponent marker is ignored (exponent 0). -/
def expVal (t : List Char) : ℤ :=
  let p : ℤ × List Char :=
    match t with
    | '-' :: r => (-1, r)
    | '+' :: r => (1, r)
    | r => (1, r)
  let eds := p.2.takeWhile Char.isDigit
  if eds = [] then 0 else p.1 * digitsToInt eds

/-- JavaScript `parseFloat` on finite decimal literals (optional sign,
digits, optional fraction, optional exponent; trailing garbage ignored),
the forms `sendAdvancedText` feeds it; `none` embeds `NaN`.  The
`Infinity` literals are not modelled. -/
def jsParseFloat (s : String) : Option JSNumber :=
  let cs0 := s.data.dropWhile (fun c => c.isWhitespace)
  let sp : ℤ × List Char :=
    match cs0 with
    | '-' :: t => (-1, t)
    | '+' :: t => (1, t)
    | t => (1, t)
  let intDigits := sp.2.takeWhile Char.isDigit
  let cs1 := sp.2.dropWhile Char.isDigit
  let fp : List Char × List Char :=
    match cs1 with
    | '.' :: t => (t.takeWhile Char.isDigit, t.dropWhile Char.isDigit)
    | t => ([], t)
  if intDigits = [] ∧ fp.1 = [] then none
  else
    let e : ℤ :=
      match fp.2 with
      | 'e' :: t => expVal t
      | 'E' :: t => expVal t
      | _ => 0
    some ⟨sp.1 * digitsToInt (intDigits ++ fp.1), e - fp.1.length⟩

/-- A segment of an advanced-text message: literal text between markers, or
the raw content of one `|||...|||` marker. -/
inductive Chunk
  | lit (text : String)
  | cmd (token : String)
deriving DecidableEq

/-- The body of the `sendAdvancedText` loop for one matched marker: trim it,
skip it when empty, handle `DELAY=` tokens (case-insensitive match on the
upper-cased command, value parsed from the original-case text, positive
values sleep `value * 1000` ms, anything else warns), and hand every other
token, upper-cased, to `sendCommandKey`. -/
def execCommandToken (connected : Bool) (raw : String) : List Effect :=
  let command := jsTrim raw
  if command = "" then []
  else if jsStartsWith (jsToUpper command) "DELAY=" then
    match jsParseFloat (jsTrim (jsDrop command 6)) with
    | some d =>
      if 0 < d.mant then [Effect.sleep ⟨d.mant, d.exp10 + 3⟩]
      else [Effect.notify "warning" ("Invalid delay value: " ++ command)]
    | none => [Effect.notify "warning" ("Invalid delay value: " ++ command)]
  else sendCommandKeyEffects connected (jsToUpper command)

/-- Execution of one segment: literal text goes through `sendText`, a
marker token through the command-token body. -/
def execChunk (connected : Bool) : Chunk → List Effect
  | .lit text => sendTextEffects connected text
  | .cmd token => execCommandToken connected token

/-- Strictly left-to-right execution of the parsed segments. -/
def execChunks (connected : Bool) : List Chunk → List Effect
  | [] => []
  | c :: rest => execChunk connected c ++ execChunks connected rest

/-- Whether a character list starts with the `|||` marker. -/
def tripleAt : List Char → Bool
  | '|' :: '|' :: '|' :: _ => true
  | _ => false

/-- Backtracking search for the closing `|||` of one marker, mirroring the
non-greedy `(.+?)` of `/\|\|\|(.+?)\|\|\|/g`: the content must be nonempty,
contains no newline (`.` does not match newlines), and ends at the first
possible closing position.  Returns the content and the remainder after the
closing marker.  Fuel-indexed; each step consumes one character. -/
def findCloser : ℕ → List Char → List Char → Option (List Char × List Char)
  | 0, _, _ => none
  | fuel + 1, cs, acc =>
    if tripleAt cs ∧ acc ≠ [] then some (acc.reverse, cs.drop 3)
    else
      match cs with
      | [] => none
      | '\n' :: _ => none
      | c :: rest => findCloser fuel rest (c :: acc)

/-- The scanning pass of `sendAdvancedText`: positions where a complete
marker matches become `Chunk.cmd` segments; everything between matches
becomes (nonempty) `Chunk.lit` segments, exactly as the `lastIndex`
bookkeeping of the source slices the text.  Fuel-indexed; each step
consumes at least one character. -/
def tokAux : ℕ → List Char → List Char → List Chunk
  | 0, cs, litAcc =>
    if litAcc ++ cs = [] then [] else [Chunk.lit (String.mk (litAcc ++ cs))]
  | fuel + 1, cs, litAcc =>
    if tripleAt cs then
      match findCloser (cs.length + 1) (cs.drop 3) [] with
      | some (content, rest) =>
        (if litAcc = [] then [] else [Chunk.lit (String.mk litAcc)]) ++
          Chunk.cmd (String.mk content) :: tokAux fuel rest []
      | none =>
        match cs with
        | [] => if litAcc = [] then [] else [Chunk.lit (String.mk litAcc)]
        | c :: rest => tokAux fuel rest (litAcc ++ [c])
    else
      match cs with
      | [] => if litAcc = [] then [] else [Chunk.lit (String.mk litAcc)]
      | c :: rest => tokAux fuel rest (litAcc ++ [c])

/-- Parse one advanced-text message into its ordered segments. -/
def tokenize (text : String) : List Chunk :=
  tokAux text.data.length text.data []

/-- The `sendAdvancedText` sender of `MacrosMenu.vue` as the effect trace of
its scanning loop. -/
def sendAdvancedTextEffects (connected : Bool) (text : String) : List Effect :=
  execChunks connected (tokenize text)

/-! ## Checksum lemmas -/

/-- Folding the byte-wise `Uint8Array` accumulator over a list equals the
plain sum reduced mod 256. -/
theorem checksum_foldl_emod (l : List ℤ) (a : ℤ) :
    l.foldl (fun s v => (s + v) % 256) (a % 256) = (a + l.sum) % 256 := by
  induction l generalizing a with
  | nil => simp
  | cons v t ih =>
    simp only [List.foldl_cons, List.sum_cons]
    have h1 : (a % 256 + v) % 256 = (a + v) % 256 := by omega
    rw [h1, ih (a + v)]
    omega

/-- Specialisation of `checksum_foldl_emod` to the zero start used by
`genPacket`. -/
theorem checksum_foldl_zero (l : List ℤ) :
    l.foldl (fun s v => (s + v) % 256) 0 = l.sum % 256 := by
  have h := checksum_foldl_emod l 0
  simpa using h

/-! ## C1 -/

/-- C1: for every command type and every payload whose bytes all lie in
`[0, 255]`, `genPacket` returns exactly the byte sequence
`[0x57, 0xAB, 0x00, commandType, payloadLength, ...payload, checksum]`,
where the payload length equals the number of payload bytes and the last
byte equals the sum of all preceding bytes mod 256. -/
theorem genPacket_frame_layout (cmd : CmdType) (data : List ℤ)
    (h : ∀ v ∈ data, 0 ≤ v ∧ v ≤ 255) :
    genPacket cmd data = Except.ok
      ([0x57, 0xAB, 0x00, cmd.val, (data.length : ℤ)] ++ data ++
        [(0x57 + 0xAB + 0x00 + cmd.val + (data.length : ℤ) + data.sum) % 256]) := by
  have hfind : data.find? (fun v => decide (v < 0) || decide (255 < v)) = none := by
    rw [List.find?_eq_none]
    intro v hv
    have hb := h v hv
    simp only [Bool.or_eq_true, decide_eq_true_eq, not_or, not_lt]
    omega
  have hsum : ([0x57, 0xab, 0x00, cmd.val, (data.length : ℤ)] ++ data).foldl
      (fun s v => (s + v) % 256) 0 =
      (0x57 + 0xAB + 0x00 + cmd.val + (data.length : ℤ) + data.sum) % 256 := by
    rw [checksum_foldl_zero]
    congr 1
    simp [List.sum_append]
    ring
  simp only [genPacket, hfind, genPacketRet, hsum, List.append_assoc]

/-- Witness for C1 at a concrete keyboard frame. -/
theorem genPacket_frame_layout_witness :
    genPacket CmdType.CMD_SEND_KB_GENERAL_DATA [2, 0, 4, 0, 0, 0, 0, 0] =
      Except.ok [0x57, 0xAB, 0x00, 0x02, 8, 2, 0, 4, 0, 0, 0, 0, 0, 18] := by
  have h := genPacket_frame_layout CmdType.CMD_SEND_KB_GENERAL_DATA
    [2, 0, 4, 0, 0, 0, 0, 0] (by decide)
  rw [h]
  congr 1

/-! ## C2 -/

/-- C2: `genPacket` fails (raising the offending value, producing no frame)
exactly when some payload byte is below 0 or above 255; with all bytes in
range it never fails. -/
theorem genPacket_error_iff_bad_byte (cmd : CmdType) (data : List ℤ) :
    (∃ e, genPacket cmd data = Except.error e) ↔
      ∃ v ∈ data, v < 0 ∨ 255 < v := by
  unfold genPacket
  cases hf : data.find? (fun v => decide (v < 0) || decide (255 < v)) with
  | none =>
    apply iff_of_false
    · rintro ⟨e, he⟩
      cases he
    · rintro ⟨v, hv, hbad⟩
      rw [List.find?_eq_none] at hf
      have := hf v hv
      simp only [Bool.or_eq_true, decide_eq_true_eq, not_or, not_lt] at this
      omega
  | some v =>
    apply iff_of_true
    · exact ⟨v, rfl⟩
    · refine ⟨v, List.mem_of_find?_eq_some hf, ?_⟩
      have := List.find?_some hf
      simpa using this

/-! ## C3 -/

/-- C3: evaluation of the keyboard handlers at the failing input (compatible
mode, serial connected, key-down of Shift alone followed by key-up of
Shift).  The key-down emits the single modifier-only frame and puts
"Shift" into the suppression set, as the claim states; but the key-up then
emits one all-zero release frame and leaves "Shift" in the set — the source
consults the suppression set only in `handleKeydown`, never in
`handleKeyup`, so the claimed suppressed (zero-frame) key-up does not
happen. -/
theorem compat_shift_keyup_still_emits :
    handleKeydown true true ⟨"Shift", true, false, false, false⟩ [] =
      (["Shift"], [kbGeneralFrame 2 0]) ∧
    handleKeyup true ["Shift"] = (["Shift"], [kbGeneralFrame 0 0]) := by
  decide

/-! ## C4 -/

/-- C4 counterexample: for the relative-mode displacement `(300, -5)` with
no button pressed, re-reading the emitted `dy` bytes as signed 8-bit values
sums to `-6`, not `-5` — the first frame carries `0xFA` (decoded `-6`)
because the source computes `(0xFF + v) & 0xFF` instead of the two's
complement `(0x100 + v) & 0xFF`. -/
theorem relative_decode_sum_cex :
    (relativeMouseFrames 0 300 (-5)).length = 3 ∧
    ((relativeMouseFrames 0 300 (-5)).map (fun f => i8decode (f.getD 8 0))).sum = -6 ∧
    ¬((relativeMouseFrames 0 300 (-5)).map (fun f => i8decode (f.getD 8 0))).sum = -5 := by
  decide

/-- C4 as amended: the loop emits exactly 3 relative-mouse frames for
`(300, -5)`, decomposing 300 as 127+127+46 with each axis clamped to
`[-127, 127]` and negative clamped values encoded as `(0xFF + v) & 0xFF`;
decoding the emitted `dx`/`dy` bytes as signed 8-bit values and summing
recovers `(300, -6)` — each emitted negative axis byte decodes to one less
than the clamped value it encodes. -/
theorem relative_decomposition_at_300_m5 :
    relativeMouseFrames 0 300 (-5) =
      [genPacketRet CmdType.CMD_SEND_MS_REL_DATA [0x01, 0, 127, 0xfa, 0],
       genPacketRet CmdType.CMD_SEND_MS_REL_DATA [0x01, 0, 127, 0, 0],
       genPacketRet CmdType.CMD_SEND_MS_REL_DATA [0x01, 0, 46, 0, 0]] ∧
    encodeAxisByte (i8clamp (-5)) = 0xfa ∧
    ((relativeMouseFrames 0 300 (-5)).map (fun f => i8decode (f.getD 7 0))).sum = 300 ∧
    ((relativeMouseFrames 0 300 (-5)).map (fun f => i8decode (f.getD 8 0))).sum = -6 := by
  decide

/-! ## C5 -/

/-- Helper: the do-while emission loop always produces at least one frame,
whatever the button state and accumulated displacement. -/
theorem relativeMouseFrames_length_pos (b x y : ℤ) :
    1 ≤ (relativeMouseFrames b x y).length := by
  unfold relativeMouseFrames
  simp only [relFramesAux]
  split <;> simp

/-- C5: every relative-mode event that reaches the emission loop emits at
least one frame even when both accumulated axes are zero; in particular a
button-state change cancels the throttle window and reaches the loop, and
the loop body (a do-while) always runs at least once. -/
theorem relative_event_always_emits (s : RelState) (buttons mx my : ℤ)
    (h : s.pressedBits ≠ buttons) :
    1 ≤ ((relMouseEvent s buttons mx my).2).length ∧
    1 ≤ (relativeMouseFrames buttons mx my).length := by
  refine ⟨?_, relativeMouseFrames_length_pos buttons mx my⟩
  have hc : s.pressedBits ≠ buttons ∨ i8clamp (s.x + mx) ≠ s.x + mx ∨
      i8clamp (s.y + my) ≠ s.y + my := Or.inl h
  simp only [relMouseEvent, if_pos hc, Bool.false_eq_true, if_false]
  exact relativeMouseFrames_length_pos buttons (s.x + mx) (s.y + my)

/-- Witness for C5: a button press with zero motion and zero accumulated
displacement still emits a frame. -/
theorem relative_event_always_emits_witness :
    1 ≤ ((relMouseEvent ⟨0, 0, 0, true⟩ 1 0 0).2).length ∧
    1 ≤ (relativeMouseFrames 1 0 0).length :=
  relative_event_always_emits ⟨0, 0, 0, true⟩ 1 0 0 (by decide)

/-! ## C6 -/

/-- C6: the absolute-mode normalization `floor(offset * 4096 / size)` lies
in `[0, 4096)` for any pointer offset inside the element, and the exact
center of a 1000x500 element maps to `x = 2048`, `y = 2048`, which
decomposes into low byte `0x00` and high byte `0x08`. -/
theorem absNormalize_range_and_center (offset size : ℚ)
    (h0 : 0 ≤ offset) (h1 : offset < size) :
    0 ≤ absNormalize offset size ∧ absNormalize offset size < 4096 ∧
    absNormalize 500 1000 = 2048 ∧ absNormalize 250 500 = 2048 ∧
    decomposeHexToBytes 2048 = [0x00, 0x08] := by
  have hs : 0 < size := lt_of_le_of_lt h0 h1
  refine ⟨?_, ?_, ?_, ?_, by decide⟩
  · rw [absNormalize]
    apply Int.le_floor.mpr
    push_cast
    exact div_nonneg (by positivity) hs.le
  · rw [absNormalize]
    apply Int.floor_lt.mpr
    push_cast
    rw [div_lt_iff₀ hs]
    have hm := mul_lt_mul_of_pos_right h1 (show (0 : ℚ) < 4096 by norm_num)
    linarith
  · rw [absNormalize]
    rw [show (500 : ℚ) * 4096 / 1000 = ((2048 : ℤ) : ℚ) by norm_num]
    exact Int.floor_intCast 2048
  · rw [absNormalize]
    rw [show (250 : ℚ) * 4096 / 500 = ((2048 : ℤ) : ℚ) by norm_num]
    exact Int.floor_intCast 2048

/-- Witness for C6 at the center of the 1000x500 element. -/
theorem absNormalize_range_and_center_witness :
    0 ≤ absNormalize 500 1000 ∧ absNormalize 500 1000 < 4096 ∧
    absNormalize 500 1000 = 2048 ∧ absNormalize 250 500 = 2048 ∧
    decomposeHexToBytes 2048 = [0x00, 0x08] :=
  absNormalize_range_and_center 500 1000 (by norm_num) (by norm_num)

/-! ## C7 -/

/-- C7: with the serial sink connected, every key-up emits exactly one
all-zero general-keyboard release frame (control bits 0, hid code 0, all
payload bytes zero) in every mode — in particular in normal mode — and the
focus-loss watcher emits the same release frame unconditionally. -/
theorem keyup_and_focus_release (eatKeys : List String) :
    handleKeyup true eatKeys =
      (eatKeys,
        [genPacketRet CmdType.CMD_SEND_KB_GENERAL_DATA [0, 0, 0, 0, 0, 0, 0, 0]]) ∧
    watchFocused false true eatKeys =
      (eatKeys,
        [genPacketRet CmdType.CMD_SEND_KB_GENERAL_DATA [0, 0, 0, 0, 0, 0, 0, 0]]) := by
  constructor <;> simp [handleKeyup, watchFocused, kbGeneralFrame]

/-- The interpreter tests `delaySeconds > 0` on the JavaScript number; on
the scaled-decimal embedding this is the sign of the mantissa, which
agrees with positivity of the denoted rational since `10 ^ e > 0`. -/
theorem JSNumber_toRat_pos (n : JSNumber) : 0 < n.toRat ↔ 0 < n.mant := by
  unfold JSNumber.toRat
  have h10 : (0 : ℚ) < (10 : ℚ) ^ n.exp10 := zpow_pos (by norm_num) _
  rw [mul_comm, mul_pos_iff_of_pos_left h10, Int.cast_pos]

/-- The interpreter sleeps `delaySeconds * 1000` ms; on the scaled-decimal
embedding adding 3 to the exponent denotes exactly that product. -/
theorem JSNumber_toRat_scale1000 (n : JSNumber) :
    JSNumber.toRat ⟨n.mant, n.exp10 + 3⟩ = n.toRat * 1000 := by
  unfold JSNumber.toRat
  rw [zpow_add₀ (by norm_num : (10 : ℚ) ≠ 0)]
  norm_num
  ring

/-! ## C8 -/

/-- C8: for every marker token whose upper-cased trimmed text starts with
`DELAY=`, execution sleeps `value * 1000` milliseconds (i.e. `value`
seconds) when the value parses to a positive number, and otherwise (a
non-positive or unparsable value) emits exactly the invalid-delay warning,
sleeps not at all, and continues with the remaining segments unchanged; in
particular the whole message `"|||DELAY=-1|||"` produces only the warning
and no sleep. -/
theorem delay_token_rule (connected : Bool) (raw : String) (rest : List Chunk)
    (hne : jsTrim raw ≠ "") (hd : jsStartsWith (jsToUpper (jsTrim raw)) "DELAY=" = true) :
    execChunks connected (Chunk.cmd raw :: rest) =
      (match jsParseFloat (jsTrim (jsDrop (jsTrim raw) 6)) with
        | some d =>
          if 0 < d.mant then [Effect.sleep ⟨d.mant, d.exp10 + 3⟩]
          else [Effect.notify "warning" ("Invalid delay value: " ++ jsTrim raw)]
        | none =>
          [Effect.notify "warning" ("Invalid delay value: " ++ jsTrim raw)]) ++
        execChunks connected rest ∧
    sendAdvancedTextEffects true "|||DELAY=-1|||" =
      [Effect.notify "warning" "Invalid delay value: DELAY=-1"] := by
  refine ⟨?_, by decide⟩
  simp only [execChunks, execChunk, execCommandToken, if_neg hne, hd, if_true]

/-- Witness for C8: the token `DELAY=-1` (non-positive value) warns and the
following literal segment is still executed. -/
theorem delay_token_rule_witness :
    execChunks true (Chunk.cmd "DELAY=-1" :: [Chunk.lit "hi"]) =
      Effect.notify "warning" "Invalid delay value: DELAY=-1" ::
        execChunks true [Chunk.lit "hi"] := by
  rw [(delay_token_rule true "DELAY=-1" [Chunk.lit "hi"] (by decide) (by decide)).1]
  decide

/-! ## C9 -/

/-- C9: the command token `CTRL+ALT+DEL` resolves to control bits
`0b0101` (Ctrl|Alt) and hid code `0x4C` (Delete), and executing it writes
one buffer holding the press frame immediately followed by the all-zero
release frame, then sleeps 16 ms. -/
theorem ctrl_alt_del_resolution :
    modifierBits ((jsSplit '+' "CTRL+ALT+DEL").map jsTrim) = 0b0101 ∧
    commandHidCode (mainKeyOf ((jsSplit '+' "CTRL+ALT+DEL").map jsTrim)) = 0x4c ∧
    sendCommandKeyEffects true "CTRL+ALT+DEL" =
      [Effect.write (kbGeneralFrame 0b0101 0x4c ++ kbGeneralFrame 0 0),
       Effect.sleep ⟨16, 0⟩] := by
  decide

/-! ## C10 -/

/-- Helper for C10: every write emitted by the per-character text loop is a
single buffer holding a press frame concatenated with the all-zero release
frame. -/
theorem sendTextGo_write_shape (connected : Bool) (cs : List Char) :
    ∀ errs w, Effect.write w ∈ sendTextGo connected cs errs →
      ∃ cb hid, w = kbGeneralFrame cb hid ++ kbGeneralFrame 0 0 := by
  induction cs with
  | nil =>
    intro errs w hw
    simp only [sendTextGo] at hw
    split at hw
    · simp at hw
    · simp at hw
  | cons c rest ih =>
    intro errs w hw
    simp only [sendTextGo] at hw
    cases hkd : ASCII_KEYS.lookup (String.singleton c) with
    | none =>
      rw [hkd] at hw
      exact ih _ w hw
    | some kd =>
      rw [hkd] at hw
      rcases List.mem_append.mp hw with h1 | h2
      · cases connected with
        | true =>
          simp only [writeSerialEff, if_true, List.mem_singleton] at h1
          obtain rfl : w = kbGeneralFrame (if kd.2 then 2 else 0) kd.1 ++
              kbGeneralFrame 0 0 := by
            simpa using h1
          exact ⟨_, _, rfl⟩
        | false =>
          simp [writeSerialEff] at h1
      · simp only [List.mem_cons] at h2
        rcases h2 with h2 | h2
        · simp at h2
        · exact ih _ w h2

/-- C10: every write emitted by the text sender and every write emitted by
the command sender consists of one press frame concatenated with its
all-zero release frame in a single buffer handed to one sink write, so no
other frame can be interleaved between a press and its release. -/
theorem press_release_single_buffer (connected : Bool) (text command : String) :
    (∀ w, Effect.write w ∈ sendTextEffects connected text →
      ∃ cb hid, w = kbGeneralFrame cb hid ++ kbGeneralFrame 0 0) ∧
    (∀ w, Effect.write w ∈ sendCommandKeyEffects connected command →
      ∃ cb hid, w = kbGeneralFrame cb hid ++ kbGeneralFrame 0 0) := by
  constructor
  · intro w hw
    exact sendTextGo_write_shape connected text.data [] w hw
  · intro w hw
    simp only [sendCommandKeyEffects] at hw
    split at hw
    · simp at hw
    · rcases List.mem_append.mp hw with h1 | h2
      · cases connected with
        | true =>
          simp only [writeSerialEff, if_true, List.mem_singleton] at h1
          obtain rfl : w = kbGeneralFrame
              ((modifierBits (List.map jsTrim (jsSplit '+' command)) : ℕ) : ℤ)
              (commandHidCode (mainKeyOf (List.map jsTrim (jsSplit '+' command)))) ++
              kbGeneralFrame 0 0 := by
            simpa using h1
          exact ⟨_, _, rfl⟩
        | false =>
          simp [writeSerialEff] at h1
      · simp at h2

/-- Witness for C10: the single write produced by typing "a" is the press
frame for hid code 4 concatenated with the release frame. -/
theorem press_release_single_buffer_witness :
    ∃ cb hid, kbGeneralFrame 0 4 ++ kbGeneralFrame 0 0 =
      kbGeneralFrame cb hid ++ kbGeneralFrame 0 0 :=
  (press_release_single_buffer true "a" "ENTER").1
    (kbGeneralFrame 0 4 ++ kbGeneralFrame 0 0) (by decide)
